import Mathlib

/-
Verification of the news-automation pipeline
(cryptopanic_to_chatgpt_to_telegram.py).

The Python program is embedded shallowly: pure string manipulation is
translated to executable Lean functions over `String`/`List Char`; the
external collaborators (HTTP download, the language-model call, the
markup stripper, the Telegram send calls, JSON parsing of state files)
are black boxes per the design document and appear as oracle function
parameters; file effects are made explicit (the seen-set file content is
a value threaded through passes, a write is an `Option` result).
-/

namespace NewsAuto

/-- Python truthiness chain over optional string fields: the first value
that is present and non-empty wins, otherwise the empty string.  Embeds
expressions of the form `a.get(k1) or a.get(k2) or ""`. -/
def firstTruthy : List (Option String) → String
  | [] => ""
  | none :: rest => firstTruthy rest
  | some s :: rest => if s = "" then firstTruthy rest else s

/-- Embedding of Python str.strip (used as `.strip()` in the source):
drop whitespace at both ends. -/
def py_strip (s : String) : String :=
  String.mk (((s.data.dropWhile Char.isWhitespace).reverse.dropWhile Char.isWhitespace).reverse)

/-- Embedding of Python str.startswith over the underlying characters. -/
def py_startswith (s pre : String) : Bool :=
  pre.data.isPrefixOf s.data

/-- Helper for `py_split_whitespace`: accumulate the current word
(reversed) and cut at whitespace, dropping empty pieces. -/
def wordsAux : List Char → List Char → List String
  | [], cur => if cur.isEmpty then [] else [String.mk cur.reverse]
  | c :: cs, cur =>
    if c.isWhitespace then
      if cur.isEmpty then wordsAux cs [] else String.mk cur.reverse :: wordsAux cs []
    else wordsAux cs (c :: cur)

/-- Embedding of Python str.split() with no argument: split on runs of
whitespace, never yielding empty strings. -/
def py_split_whitespace (s : String) : List String :=
  wordsAux s.data []

/-- One entry of a raw feed item's `media` list (`media[0].get("url")`). -/
structure MediaEntry where
  url : Option String
deriving DecidableEq

/-- The nested `source` dict of a raw feed item (`source.get("title", "")`). -/
structure SourceInfo where
  title : Option String
deriving DecidableEq

/-- A raw feed item as the source reads it with `.get`: every field the
program touches, each possibly absent.  `none` stands both for a missing
key and for a non-dict `source` value. -/
structure RawItem where
  id : Option String
  url : Option String
  title : Option String
  title_plain : Option String
  media : Option (List MediaEntry)
  thumbnail : Option String
  image : Option String
  source : Option SourceInfo
  domain : Option String
  excerpt : Option String
  clean_url : Option String
deriving DecidableEq

/-- Build a raw item from just an id and a title, all other fields absent. -/
def mkItem (i t : Option String) : RawItem :=
  ⟨i, none, t, none, none, none, none, none, none, none, none⟩

/-- Identity derivation of `process_once` line 301:
`str(it.get("id") or it.get("url") or it.get("title") or "")`. -/
def derivedId (it : RawItem) : String :=
  firstTruthy [it.id, it.url, it.title]

/-- Title derivation of `process_once` line 302:
`it.get("title") or it.get("title_plain") or ""`. -/
def derivedTitle (it : RawItem) : String :=
  firstTruthy [it.title, it.title_plain]

/-- A normalized item: `{"id": nid, "title": title, "raw": it}`. -/
structure NormItem where
  id : String
  title : String
  raw : RawItem
deriving DecidableEq

/-- The normalization step of `process_once` lines 299-303. -/
def normalize (it : RawItem) : NormItem :=
  ⟨derivedId it, derivedTitle it, it⟩

/-- Lines 299-306 of `process_once`: normalize every fetched item, then
reverse the list so the pass posts oldest-first. -/
def normalize_feed (items : List RawItem) : List NormItem :=
  (items.map normalize).reverse

/-- The synthesized fallback image of `generate_fallback_image`:
the fixed canvas, the headline lines actually drawn (`lines[:6]`), the
brand stamp, and whether the truetype fonts loaded (their failure only
switches to the built-in default font). -/
structure FallbackImage where
  width : Nat
  height : Nat
  drawnLines : List String
  brand : String
  usedTruetype : Bool
deriving DecidableEq

/-- One step of the greedy word-wrap loop of `generate_fallback_image`
lines 110-115: the accumulator is (finished lines, current line). -/
def wrapStep (acc : List String × String) (w : String) : List String × String :=
  if (acc.2 ++ " " ++ w).length > 28 then (acc.1 ++ [py_strip acc.2], w)
  else (acc.1, acc.2 ++ " " ++ w)

/-- The full word-wrap of `generate_fallback_image` lines 106-117:
split the headline into words, wrap greedily at 28 characters, flush the
trailing line when non-empty. -/
def wrap_headline (headline : String) : List String :=
  let p := (py_split_whitespace headline).foldl wrapStep ([], "")
  if p.2 = "" then p.1 else p.1 ++ [py_strip p.2]

/-- `generate_fallback_image` (lines 97-127): a 1080 x 1080 canvas with at
most the first 6 wrapped headline lines drawn and the fixed brand caption.
`fontOk` records whether the truetype font load succeeded; either way an
image is produced. -/
def generate_fallback_image (fontOk : Bool) (headline : String) : FallbackImage :=
  ⟨1080, 1080, (wrap_headline headline).take 6, "Crypto With Sarvesh", fontOk⟩

/-- What the publisher receives as photo: either downloaded bytes or the
synthesized fallback. -/
inductive ImageStream where
  | downloaded : List Nat → ImageStream
  | fallback : FallbackImage → ImageStream
deriving DecidableEq

/-- Media URL extraction of `process_once` lines 316-319: first element
of a non-empty `media` list, else `thumbnail`, else `image`, else `""`. -/
def extract_media_url (raw : RawItem) : String :=
  let fromMedia : Option String :=
    match raw.media with
    | some (m :: _) => m.url
    | _ => none
  firstTruthy [fromMedia, raw.thumbnail, raw.image]

/-- The download guard of `process_once` line 320:
`if media_url and media_url.startswith("http")`. -/
def attempts_download (media_url : String) : Bool :=
  !(media_url == "") && py_startswith media_url "http"

/-- The spec's notion of an absolute HTTP(S) URL, for comparison with the
code's guard. -/
def isAbsoluteHttpUrl (u : String) : Bool :=
  py_startswith u "http://" || py_startswith u "https://"

/-- Image resolution of `process_once` lines 316-322: download when the
guard passes (`download` is the black-box `download_image`, `none` being
any failure), otherwise or on failure synthesize the fallback image. -/
def resolve_image (download : String → Option (List Nat)) (fontOk : Bool)
    (raw : RawItem) (title : String) : ImageStream :=
  let media_url := extract_media_url raw
  match (if attempts_download media_url then download media_url else none) with
  | some bytes => ImageStream.downloaded bytes
  | none => ImageStream.fallback (generate_fallback_image fontOk title)

/-- The two caption segments returned by `call_openai_generate`:
`{"html": ..., "plain": ...}`. -/
structure GeneratedCaption where
  html : String
  plain : String
deriving DecidableEq

/-- The literal segment marker token of the caption protocol. -/
def MARKER : String := "PLAIN_CAPTION:"

/-- First-occurrence split, embedding Python `sep in s` together with
`s.split(sep, 1)`: `some (before, after)` around the first occurrence of
`pat`, `none` when `pat` (assumed non-empty) does not occur. -/
def findSplit (pat : List Char) : List Char → Option (List Char × List Char)
  | [] => none
  | c :: cs =>
    if pat.isPrefixOf (c :: cs) then some ([], (c :: cs).drop pat.length)
    else
      match findSplit pat cs with
      | some (a, b) => some (c :: a, b)
      | none => none

/-- The parsing step of `call_openai_generate` lines 203-209: split the
(already stripped) response on the marker, trimming both segments; with
no marker, the whole text is the formatted caption and the plain caption
is the markup-stripped text (`getText` is the black-box
`BeautifulSoup(...).get_text()`). -/
def parse_generation (getText : String → String) (text : String) : GeneratedCaption :=
  match findSplit MARKER.data text.data with
  | some (a, b) => ⟨py_strip (String.mk a), py_strip (String.mk b)⟩
  | none => ⟨text, getText text⟩

/-- `call_openai_generate` (lines 191-212): the model call is the oracle
`llm` (`none` is any thrown error, yielding `None`); on success the
response content is stripped (line 202) and parsed. -/
def call_openai_generate (getText : String → String) (llm : String → Option String)
    (prompt : String) : Option GeneratedCaption :=
  match llm prompt with
  | none => none
  | some content => some (parse_generation getText (py_strip content))

/-- `build_openai_prompt` (lines 167-189): the deterministic prompt built
from title, source label and hint. -/
def build_openai_prompt (item : RawItem) : String :=
  let title := firstTruthy [item.title, item.title_plain]
  let domain :=
    match item.source with
    | some s => s.title.getD ""
    | none => firstTruthy [item.domain]
  let hint := firstTruthy [item.excerpt, item.clean_url]
  "You are a Telegram channel editor for \"Crypto With Sarvesh\".\n" ++
  "Given the news item below, produce a short HTML-formatted Telegram caption that:\n\n" ++
  "- Is MAX 220 characters (count characters, do not exceed 220).\n" ++
  "- Uses HTML formatting; bold the single most important sentence using <b>...</b>.\n" ++
  "- Does NOT include any external links or URLs.\n" ++
  "- Keeps tone educational and neutral (no promises/returns/price predictions).\n" ++
  "- Output only the HTML caption, then a newline, then the plain caption prefixed by \x27PLAIN_CAPTION:\x27.\n\n" ++
  "News item:\nTitle: " ++ title ++ "\nSource: " ++ domain ++ "\nHint: " ++ hint ++ "\n"

/-- The JSON payload of the keyed endpoint as `fetch_via_api` touches it:
the two list fields the selection expression `j.get("results") or
j.get("posts") or j or []` reads, plus whether the dict has any other
key (which decides the dict's own truthiness). -/
structure ApiPayload where
  results : Option (List RawItem)
  posts : Option (List RawItem)
  hasOtherKeys : Bool
deriving DecidableEq

/-- What the selection expression can evaluate to: a list of items, or
the whole payload dict itself (the `or j` branch). -/
inductive FetchValue where
  | items : List RawItem → FetchValue
  | wholePayload : ApiPayload → FetchValue
deriving DecidableEq

/-- Python truthiness of an optional list field: present and non-empty. -/
def listTruthy : Option (List RawItem) → Option (List RawItem)
  | none => none
  | some l => if l.isEmpty then none else some l

/-- Python truthiness of the payload dict itself: it has some key. -/
def payloadTruthy (j : ApiPayload) : Bool :=
  j.results.isSome || j.posts.isSome || j.hasOtherKeys

/-- Line 139 of `fetch_via_api`:
`results = j.get("results") or j.get("posts") or j or []`. -/
def fetch_select (j : ApiPayload) : FetchValue :=
  match listTruthy j.results with
  | some l => FetchValue.items l
  | none =>
    match listTruthy j.posts with
    | some l => FetchValue.items l
    | none => if payloadTruthy j then FetchValue.wholePayload j else FetchValue.items []

/-- `fetch_via_api` (lines 130-144): no API key or any transport/parse
error (`resp = none`) yields the empty list, otherwise the selection
expression is applied to the decoded payload. -/
def fetch_via_api (hasKey : Bool) (resp : Option ApiPayload) : FetchValue :=
  if hasKey then
    match resp with
    | some j => fetch_select j
    | none => FetchValue.items []
  else FetchValue.items []

/-- Claim-side selection following the spec sentence word for word:
the `results` field if PRESENT, else the `posts` field if present, else
the whole payload, else empty.  Kept separate from `fetch_select` (the
code's truthiness-based expression) to compare the two. -/
def claimFieldSelect (j : ApiPayload) : FetchValue :=
  match j.results with
  | some l => FetchValue.items l
  | none =>
    match j.posts with
    | some l => FetchValue.items l
    | none => if payloadTruthy j then FetchValue.wholePayload j else FetchValue.items []

/-- The decoded seen-set file: `{"posted_ids": [...]}`. -/
structure SeenData where
  posted_ids : List String
deriving DecidableEq

/-- `read_last_seen` (lines 75-81): a missing file (`none`) or content
the black-box JSON decoder rejects yields the empty record
`{"posted_ids": []}`; the exception is swallowed, never re-raised. -/
def read_last_seen (parseJson : String → Option SeenData) (file : Option String) : SeenData :=
  match file with
  | none => ⟨[]⟩
  | some content =>
    match parseJson content with
    | some d => d
    | none => ⟨[]⟩

/-- The three optional social handles from the environment. -/
structure SocialConfig where
  ig : String
  x : String
  yt : String
deriving DecidableEq

/-- A callback query payload: its Telegram id and its `data` key. -/
structure TgCallback where
  id : String
  data : String
deriving DecidableEq

/-- One inbound update of `get_updates`. -/
structure TgUpdate where
  update_id : Nat
  callback : Option TgCallback
deriving DecidableEq

/-- The answer-text selection of `callback_poller_loop` lines 265-273:
a known key whose handle is set (non-empty) gets the handle popup, every
other case gets the generic text. -/
def answer_text (cfg : SocialConfig) (data : String) : String :=
  if data = "social_ig" ∧ cfg.ig ≠ "" then "IG: " ++ cfg.ig
  else if data = "social_x" ∧ cfg.x ≠ "" then "X: " ++ cfg.x
  else if data = "social_yt" ∧ cfg.yt ≠ "" then "YT: " ++ cfg.yt
  else "Handle not set."

/-- The poller's observable state over one batch of updates: the running
offset, every offset value persisted to the offset file (in order), and
every answer issued (callback id, text), in order. -/
structure PollerState where
  offset : Nat
  persisted : List Nat
  answers : List (String × String)
deriving DecidableEq

/-- Lines 258-281 of `callback_poller_loop`, one update: advance the
offset to `max(offset, update_id + 1)`, persist it immediately, then
answer the callback query if the update carries one.  (Answer delivery
itself is a black-box send; its failure does not change this state.) -/
def poll_update (cfg : SocialConfig) (s : PollerState) (u : TgUpdate) : PollerState :=
  let off := max s.offset (u.update_id + 1)
  match u.callback with
  | some cq => ⟨off, s.persisted ++ [off], s.answers ++ [(cq.id, answer_text cfg cq.data)]⟩
  | none => ⟨off, s.persisted ++ [off], s.answers⟩

/-- One `get_updates` batch processed from a starting offset. -/
def poll_batch (cfg : SocialConfig) (off : Nat) (us : List TgUpdate) : PollerState :=
  us.foldl (poll_update cfg) ⟨off, [], []⟩

/-- The per-update offsets in order, as `poll_batch` persists them:
each is the running maximum of `update_id + 1`. -/
def offsets_from (off : Nat) : List TgUpdate → List Nat
  | [] => []
  | u :: us => max off (u.update_id + 1) :: offsets_from (max off (u.update_id + 1)) us

/-- The answers a batch issues, in order: exactly one per update that
carries a callback query. -/
def answers_from (cfg : SocialConfig) : List TgUpdate → List (String × String)
  | [] => []
  | u :: us =>
    match u.callback with
    | some cq => (cq.id, answer_text cfg cq.data) :: answers_from cfg us
    | none => answers_from cfg us

/-- The black-box outcomes one poll pass can observe: the image download
(`download_image`), the font load inside `generate_fallback_image`, the
model call content (`none` = thrown), the markup stripper, and whether
each `bot.send_photo` call completes without error. -/
structure Oracles where
  download : String → Option (List Nat)
  fontOk : Bool
  llm : String → Option String
  getText : String → String
  publishOk : NormItem → ImageStream → GeneratedCaption → Bool

/-- The in-memory state of the `for it in normalized` loop of
`process_once`: the posted-ids set (as a list, membership is what
matters), the identities published so far in order, the identities for
which a send call was attempted in order, and the `new_posted` flag. -/
structure LoopState where
  posted : List String
  published : List String
  attempts : List String
  newPosted : Bool
deriving DecidableEq

/-- Lines 309-344 of `process_once`, one normalized item: skip on empty
identity or membership in the posted set; resolve the image (never
fails); skip with no state change when the model call fails; otherwise
attempt the send, and only when it completes without error add the
identity to the posted set and raise `new_posted`.  The image is
resolved before the model call in the source; both are effect-free here
so the order is immaterial. -/
def processItem (orc : Oracles) (s : LoopState) (it : NormItem) : LoopState :=
  if it.id = "" ∨ it.id ∈ s.posted then s
  else
    match call_openai_generate orc.getText orc.llm (build_openai_prompt it.raw) with
    | none => s
    | some gen =>
      if orc.publishOk it (resolve_image orc.download orc.fontOk it.raw it.title) gen then
        ⟨s.posted ++ [it.id], s.published ++ [it.id], s.attempts ++ [it.id], true⟩
      else
        ⟨s.posted, s.published, s.attempts ++ [it.id], s.newPosted⟩

/-- The loop of `process_once` run over a normalized list from the
loaded posted-ids. -/
def runItems (orc : Oracles) (loaded : List String) (norm : List NormItem) : LoopState :=
  norm.foldl (processItem orc) ⟨loaded, [], [], false⟩

/-- The observable outcome of one `process_once` pass: the final
in-memory posted set, the successful publishes in order, the attempted
sends in order, and the seen-set file write (`none` = the file was not
rewritten). -/
structure PassResult where
  posted : List String
  published : List String
  attempts : List String
  written : Option (List String)
deriving DecidableEq

/-- `process_once` (lines 288-348) over already-fetched items, with the
loaded posted-ids list standing for the decoded seen-set file: an empty
fetch returns with no state mutation; otherwise the normalized, reversed
list is processed and the seen-set file is rewritten only when
`new_posted` was raised. -/
def process_once (orc : Oracles) (loaded : List String) (items : List RawItem) : PassResult :=
  match items with
  | [] => ⟨loaded, [], [], none⟩
  | _ =>
    let s := runItems orc loaded (normalize_feed items)
    ⟨s.posted, s.published, s.attempts, if s.newPosted then some s.posted else none⟩

/-- The seen-set file content after a pass: the written list when the
pass rewrote the file, the unchanged loaded content otherwise. -/
def nextSeen (r : PassResult) (loaded : List String) : List String :=
  match r.written with
  | some l => l
  | none => loaded

/-- One poll pass's inputs: its black-box outcomes and fetched items. -/
structure PassInput where
  oracles : Oracles
  items : List RawItem

/-- What one pass contributes to a multi-pass trace: the seen-set it
loaded, and its published and attempted identities in order. -/
structure PassRecord where
  loaded : List String
  published : List String
  attempts : List String
deriving DecidableEq

/-- A sequence of completed poll passes threaded through the seen-set
file (JSON encode/decode of the written list is the identity round
trip): per-pass records plus the final file content. -/
def runPasses (loaded : List String) : List PassInput → List PassRecord × List String
  | [] => ([], loaded)
  | p :: ps =>
    let r := process_once p.oracles loaded p.items
    let rest := runPasses (nextSeen r loaded) ps
    (⟨loaded, r.published, r.attempts⟩ :: rest.1, rest.2)

/-- An oracle set in which every external call succeeds: downloads are
absent, fonts load, the model returns `"cap"`, markup stripping is the
identity, every send completes. -/
def demoOrc : Oracles :=
  ⟨fun _ => none, true, fun _ => some "cap", fun s => s, fun _ _ _ => true⟩

/-- An oracle set in which every send call throws. -/
def failPubOrc : Oracles :=
  ⟨fun _ => none, true, fun _ => some "cap", fun s => s, fun _ _ _ => false⟩

/-- The spec's ordering feed: `[{id:"2",title:"B"}, {id:"1",title:"A"}]`. -/
def demoFeed : List RawItem := [mkItem (some "2") (some "B"), mkItem (some "1") (some "A")]

/-- A raw item whose only media hint is the malformed URL `"not-a-url"`. -/
def itemNotAUrl : RawItem :=
  ⟨some "1", none, some "T", none, some [⟨some "not-a-url"⟩], none, none, none, none, none, none⟩

/-- A raw item whose only media hint is `"httpx"`: not an absolute
HTTP(S) URL, yet it starts with `"http"`. -/
def itemHttpx : RawItem :=
  ⟨some "1", none, some "T", none, none, some "httpx", none, none, none, none, none⟩

/-- Two identical all-succeeding passes over the ordering feed. -/
def demoPassInputs : List PassInput := [⟨demoOrc, demoFeed⟩, ⟨demoOrc, demoFeed⟩]

/-- A raw field as the spec reads it: `some` exactly when present and
non-empty. -/
def nonEmptyField : Option String → Option String
  | none => none
  | some s => if s = "" then none else some s

/-- Identity selection following the spec's words: raw id, else raw url,
else raw title, else the empty string — first present non-empty wins. -/
def specIdentity (raw : RawItem) : String :=
  match nonEmptyField raw.id with
  | some s => s
  | none =>
    match nonEmptyField raw.url with
    | some s => s
    | none =>
      match nonEmptyField raw.title with
      | some s => s
      | none => ""

/-- Title selection following the spec's words: `title`, else
`title_plain`, else the empty string. -/
def specTitle (raw : RawItem) : String :=
  match nonEmptyField raw.title with
  | some s => s
  | none =>
    match nonEmptyField raw.title_plain with
    | some s => s
    | none => ""

/-- The payload of the C6 counterexample: a present-but-empty `results`
list next to a non-empty `posts` list. -/
def demoPayload : ApiPayload := ⟨some [], some [mkItem (some "1") none], false⟩

/-- The invariant of the `process_once` item loop, relative to the
loaded posted-ids: the loaded set is contained in the in-memory set; an
identity is in the in-memory set exactly when loaded or published this
pass; the publish trace has no duplicate; published and attempted
identities are new and non-empty; and the `new_posted` flag tracks
whether anything was published. -/
def Inv (loaded : List String) (s : LoopState) : Prop :=
  (∀ x ∈ loaded, x ∈ s.posted) ∧
  (∀ x, x ∈ s.posted ↔ (x ∈ loaded ∨ x ∈ s.published)) ∧
  s.published.Nodup ∧
  (∀ x ∈ s.published, x ∉ loaded ∧ x ≠ "") ∧
  (∀ x ∈ s.attempts, x ∉ loaded ∧ x ≠ "") ∧
  (s.newPosted = true ↔ s.published ≠ [])

/-! Helper lemmas about the embedded Python string primitives. -/

theorem isPrefixOf_exists_append {p l : List Char} (h : p.isPrefixOf l = true) :
    ∃ t : List Char, l = p ++ t := by
  induction p generalizing l with
  | nil => exact ⟨l, rfl⟩
  | cons a as ih =>
    cases l with
    | nil => simp [List.isPrefixOf] at h
    | cons b bs =>
      simp only [List.isPrefixOf, Bool.and_eq_true, beq_iff_eq] at h
      obtain ⟨hab, hrest⟩ := h
      obtain ⟨t, ht⟩ := ih hrest
      exact ⟨t, by simp [hab, ht]⟩

theorem isPrefixOf_append_self (p t : List Char) : p.isPrefixOf (p ++ t) = true := by
  induction p with
  | nil => simp [List.isPrefixOf]
  | cons a as ih =>
    simp only [List.cons_append, List.isPrefixOf, beq_self_eq_true, Bool.true_and]
    exact ih

theorem isPrefixOf_append_of_isPrefixOf {p l : List Char} (r : List Char)
    (h : p.isPrefixOf l = true) : p.isPrefixOf (l ++ r) = true := by
  obtain ⟨t, rfl⟩ := isPrefixOf_exists_append h
  rw [List.append_assoc]
  exact isPrefixOf_append_self p (t ++ r)

/-- What a successful first-occurrence split means: the scanned list
decomposes around the pattern and no occurrence lies wholly before it. -/
theorem findSplit_some {pat l a b : List Char} (h : findSplit pat l = some (a, b)) :
    l = a ++ pat ++ b ∧ findSplit pat a = none := by
  induction l generalizing a b with
  | nil => simp [findSplit] at h
  | cons c cs ih =>
    rw [findSplit] at h
    by_cases hp : pat.isPrefixOf (c :: cs) = true
    · simp only [hp, if_true, Option.some.injEq, Prod.mk.injEq] at h
      obtain ⟨ha, hb⟩ := h
      obtain ⟨t, ht⟩ := isPrefixOf_exists_append hp
      subst ha
      refine ⟨?_, by simp [findSplit]⟩
      rw [ht] at hb ⊢
      rw [List.drop_left] at hb
      simp [← hb]
    · rw [if_neg hp] at h
      cases hfs : findSplit pat cs with
      | none => rw [hfs] at h; simp at h
      | some p =>
        obtain ⟨a', b'⟩ := p
        rw [hfs] at h
        simp only [Option.some.injEq, Prod.mk.injEq] at h
        obtain ⟨ha, hb⟩ := h
        obtain ⟨hcs, hnone⟩ := ih hfs
        constructor
        · rw [← ha, ← hb, hcs]; simp
        · rw [← ha, findSplit]
          have hnp : pat.isPrefixOf (c :: a') = false := by
            by_contra hcon
            rw [Bool.not_eq_false] at hcon
            have h2 := isPrefixOf_append_of_isPrefixOf (pat ++ b') hcon
            have h3 : (c :: a') ++ (pat ++ b') = c :: cs := by
              rw [hcs]; simp
            rw [h3] at h2
            exact hp h2
          simp [hnp, hnone]

/-! The claims. -/

/-- Claim C5 (corrected): the model response is first stripped of
surrounding whitespace (line 202); on the stripped text, a present
marker splits it into formatted/plain segments, both trimmed, the
segment boundary being the first marker occurrence; an absent marker
yields the stripped text as formatted caption and its markup-stripped
rendering as plain caption.  A thrown model call yields no caption. -/
theorem C5_caption_parse (getText : String → String) (llm : String → Option String)
    (prompt : String) :
    (llm prompt = none → call_openai_generate getText llm prompt = none) ∧
    (∀ raw, llm prompt = some raw →
      (findSplit MARKER.data (py_strip raw).data = none →
        call_openai_generate getText llm prompt =
          some ⟨py_strip raw, getText (py_strip raw)⟩) ∧
      (∀ a b, findSplit MARKER.data (py_strip raw).data = some (a, b) →
        (py_strip raw).data = a ++ MARKER.data ++ b ∧
        findSplit MARKER.data a = none ∧
        call_openai_generate getText llm prompt =
          some ⟨py_strip (String.mk a), py_strip (String.mk b)⟩)) := by
  constructor
  · intro h
    simp [call_openai_generate, h]
  · intro raw hraw
    constructor
    · intro hn
      simp [call_openai_generate, hraw, parse_generation, hn]
    · intro a b hs
      obtain ⟨hdec, hnone⟩ := findSplit_some hs
      exact ⟨hdec, hnone, by simp [call_openai_generate, hraw, parse_generation, hs]⟩

/-- Claim C5 witness: a concrete marked response is split around the
marker into trimmed segments. -/
theorem C5_caption_parse_witness :
    (py_strip "x PLAIN_CAPTION: y").data = ("x ").data ++ MARKER.data ++ (" y").data ∧
    findSplit MARKER.data ("x ").data = none ∧
    call_openai_generate (fun s => s) (fun _ => some "x PLAIN_CAPTION: y") "p" =
      some ⟨py_strip (String.mk ("x ").data), py_strip (String.mk (" y").data)⟩ :=
  ((C5_caption_parse (fun s => s) (fun _ => some "x PLAIN_CAPTION: y") "p").2
    "x PLAIN_CAPTION: y" rfl).2 ("x ").data (" y").data (by decide)

/-- Claim C5 counterexample: the code strips the response before using
it, so a response carrying surrounding whitespace is NOT returned whole
as the formatted caption — the claim's "full raw response" fails. -/
theorem C5_counterexample :
    call_openai_generate (fun s => s) (fun _ => some " A ") "p" =
      some ⟨"A", "A"⟩ ∧ ("A" : String) ≠ " A " := by
  constructor
  · decide
  · decide

/-- Claim C4 (corrected): image resolution always produces an image —
when the guard rejects the media URL (it is empty or does not start with
`"http"`) no download is attempted and the synthesized fallback is used;
a failed download also degrades to the fallback; the result is always
either downloaded bytes or exactly the synthesized fallback; and the
synthesis draws at most 6 wrapped headline lines and completes whether
or not the truetype font loaded. -/
theorem C4_image_fallback (download : String → Option (List Nat)) (fontOk : Bool)
    (raw : RawItem) (title : String) :
    (attempts_download (extract_media_url raw) = false →
      resolve_image download fontOk raw title =
        ImageStream.fallback (generate_fallback_image fontOk title)) ∧
    (download (extract_media_url raw) = none →
      resolve_image download fontOk raw title =
        ImageStream.fallback (generate_fallback_image fontOk title)) ∧
    ((∃ bytes, resolve_image download fontOk raw title = ImageStream.downloaded bytes) ∨
      resolve_image download fontOk raw title =
        ImageStream.fallback (generate_fallback_image fontOk title)) ∧
    (generate_fallback_image fontOk title).drawnLines.length ≤ 6 ∧
    (generate_fallback_image fontOk title).usedTruetype = fontOk := by
  refine ⟨?_, ?_, ?_, ?_, rfl⟩
  · intro h
    simp [resolve_image, h]
  · intro h
    cases hA : attempts_download (extract_media_url raw) <;>
      simp [resolve_image, hA, h]
  · cases hv : (if attempts_download (extract_media_url raw) then
        download (extract_media_url raw) else none) with
    | some bytes => exact Or.inl ⟨bytes, by simp [resolve_image, hv]⟩
    | none => exact Or.inr (by simp [resolve_image, hv])
  · simp only [generate_fallback_image]
    exact List.length_take_le 6 (wrap_headline title)

/-- Claim C4 witness: the `"not-a-url"` media hint triggers no download
(even with a download oracle that would succeed) and yields the
synthesized fallback. -/
theorem C4_image_fallback_witness :
    resolve_image (fun _ => some [7]) true itemNotAUrl "T" =
      ImageStream.fallback (generate_fallback_image true "T") :=
  (C4_image_fallback (fun _ => some [7]) true itemNotAUrl "T").1 (by decide)

/-- Claim C4 counterexample: `"httpx"` is not an absolute HTTP(S) URL,
yet the code's `startswith("http")` guard passes and the download is
attempted (and its result used), refuting "a media URL that is not an
absolute HTTP(S) URL causes no download attempt". -/
theorem C4_counterexample :
    isAbsoluteHttpUrl "httpx" = false ∧
    attempts_download (extract_media_url itemHttpx) = true ∧
    resolve_image (fun _ => some [7]) true itemHttpx "T" = ImageStream.downloaded [7] := by
  refine ⟨by decide, by decide, by decide⟩

/-! The `process_once` loop: step shape and invariant preservation. -/

/-- Each loop iteration either leaves the state unchanged (skip, or
model-call failure), or — for a new non-empty identity — records an
attempt, additionally committing the identity on send success. -/
theorem processItem_shape (orc : Oracles) (s : LoopState) (it : NormItem) :
    processItem orc s it = s ∨
    (¬(it.id = "" ∨ it.id ∈ s.posted) ∧
      (processItem orc s it = ⟨s.posted, s.published, s.attempts ++ [it.id], s.newPosted⟩ ∨
       processItem orc s it =
         ⟨s.posted ++ [it.id], s.published ++ [it.id], s.attempts ++ [it.id], true⟩)) := by
  unfold processItem
  by_cases hskip : it.id = "" ∨ it.id ∈ s.posted
  · rw [if_pos hskip]
    exact Or.inl rfl
  · rw [if_neg hskip]
    split
    · exact Or.inl rfl
    · split
      · exact Or.inr ⟨hskip, Or.inr rfl⟩
      · exact Or.inr ⟨hskip, Or.inl rfl⟩

theorem inv_init (loaded : List String) : Inv loaded ⟨loaded, [], [], false⟩ :=
  ⟨fun _ hx => hx, fun x => by simp, List.nodup_nil, by simp, by simp, by simp⟩

theorem inv_step (orc : Oracles) (loaded : List String) (s : LoopState) (it : NormItem)
    (h : Inv loaded s) : Inv loaded (processItem orc s it) := by
  rcases processItem_shape orc s it with heq | ⟨hskip, heq | heq⟩
  · rw [heq]; exact h
  · push_neg at hskip
    obtain ⟨hne, hnp⟩ := hskip
    have hnl : it.id ∉ loaded := fun hl => hnp (h.1 it.id hl)
    rw [heq]
    obtain ⟨h1, h2, h3, h4, h5, h6⟩ := h
    refine ⟨h1, h2, h3, h4, ?_, h6⟩
    intro x hx
    rcases List.mem_append.mp hx with hx | hx
    · exact h5 x hx
    · rw [List.mem_singleton] at hx
      subst hx
      exact ⟨hnl, hne⟩
  · push_neg at hskip
    obtain ⟨hne, hnp⟩ := hskip
    have hnl : it.id ∉ loaded := fun hl => hnp (h.1 it.id hl)
    have hnpub : it.id ∉ s.published := fun hp => hnp ((h.2.1 it.id).mpr (Or.inr hp))
    rw [heq]
    obtain ⟨h1, h2, h3, h4, h5, h6⟩ := h
    refine ⟨?_, ?_, ?_, ?_, ?_, by simp⟩
    · intro x hx
      exact List.mem_append.mpr (Or.inl (h1 x hx))
    · intro x
      simp only [List.mem_append, List.mem_singleton]
      have := h2 x
      tauto
    · refine List.Nodup.append h3 (List.nodup_singleton it.id) ?_
      intro x hx1 hx2
      rw [List.mem_singleton] at hx2
      subst hx2
      exact hnpub hx1
    · intro x hx
      rcases List.mem_append.mp hx with hx | hx
      · exact h4 x hx
      · rw [List.mem_singleton] at hx
        subst hx
        exact ⟨hnl, hne⟩
    · intro x hx
      rcases List.mem_append.mp hx with hx | hx
      · exact h5 x hx
      · rw [List.mem_singleton] at hx
        subst hx
        exact ⟨hnl, hne⟩

theorem inv_fold (orc : Oracles) (loaded : List String) (l : List NormItem) (s : LoopState)
    (h : Inv loaded s) : Inv loaded (l.foldl (processItem orc) s) := by
  induction l generalizing s with
  | nil => exact h
  | cons a l ih => exact ih _ (inv_step orc loaded s a h)

theorem inv_runItems (orc : Oracles) (loaded : List String) (norm : List NormItem) :
    Inv loaded (runItems orc loaded norm) :=
  inv_fold orc loaded norm _ (inv_init loaded)

/-- The publish trace grows along the loop as an in-order selection of
the processed identities. -/
theorem published_fold_sublist (orc : Oracles) (l : List NormItem) (s : LoopState) :
    ∃ t, (l.foldl (processItem orc) s).published = s.published ++ t ∧
      t.Sublist (l.map NormItem.id) := by
  induction l generalizing s with
  | nil => exact ⟨[], by simp, by simp⟩
  | cons a l ih =>
    obtain ⟨t, ht, hs⟩ := ih (processItem orc s a)
    rcases processItem_shape orc s a with heq | ⟨_, heq | heq⟩
    · refine ⟨t, ?_, hs.cons a.id⟩
      rw [List.foldl_cons, ht, heq]
    · refine ⟨t, ?_, hs.cons a.id⟩
      rw [List.foldl_cons, ht, heq]
    · refine ⟨a.id :: t, ?_, hs.cons₂ a.id⟩
      rw [List.foldl_cons, ht, heq]
      simp

/-- Once an identity has been published, later iterations never attempt
it again. -/
theorem processItem_attempts_count (orc : Oracles) (loaded : List String) (s : LoopState)
    (it : NormItem) (h : Inv loaded s) (id : String) (hid : id ∈ s.published) :
    ((processItem orc s it).attempts).count id = s.attempts.count id ∧
    id ∈ (processItem orc s it).published := by
  have hidp : id ∈ s.posted := (h.2.1 id).mpr (Or.inr hid)
  rcases processItem_shape orc s it with heq | ⟨hskip, heq | heq⟩
  · rw [heq]; exact ⟨rfl, hid⟩
  · have hne : it.id ≠ id := by
      intro hcon
      subst hcon
      exact (not_or.mp hskip).2 hidp
    have hz : List.count id [it.id] = 0 := by
      rw [List.count_eq_zero]
      intro hmem
      exact hne (List.mem_singleton.mp hmem).symm
    rw [heq]
    exact ⟨by simp [List.count_append, hz], hid⟩
  · have hne : it.id ≠ id := by
      intro hcon
      subst hcon
      exact (not_or.mp hskip).2 hidp
    have hz : List.count id [it.id] = 0 := by
      rw [List.count_eq_zero]
      intro hmem
      exact hne (List.mem_singleton.mp hmem).symm
    rw [heq]
    exact ⟨by simp [List.count_append, hz], List.mem_append.mpr (Or.inl hid)⟩

theorem attempts_count_fold (orc : Oracles) (loaded : List String) (l : List NormItem)
    (s : LoopState) (h : Inv loaded s) (id : String) (hid : id ∈ s.published) :
    ((l.foldl (processItem orc) s).attempts).count id = s.attempts.count id := by
  induction l generalizing s with
  | nil => rfl
  | cons a l ih =>
    have hstep := processItem_attempts_count orc loaded s a h id hid
    rw [List.foldl_cons, ih (processItem orc s a) (inv_step orc loaded s a h) hstep.2]
    exact hstep.1

/-- Running the loop is running it on a prefix, then on the rest. -/
theorem runItems_take_drop (orc : Oracles) (loaded : List String) (norm : List NormItem)
    (n : Nat) :
    runItems orc loaded norm =
      (norm.drop n).foldl (processItem orc) (runItems orc loaded (norm.take n)) := by
  unfold runItems
  rw [← List.foldl_append, List.take_append_drop]

/-- Everything one completed pass guarantees, in one bundle: the loaded
identities stay in the in-memory set; in-memory membership is loaded-or-
published; the publish trace has no duplicates, and its identities (like
all attempted identities) are new and non-empty; the file is rewritten
exactly when something was published; and membership in the resulting
file content is loaded-or-published. -/
theorem pass_core (orc : Oracles) (loaded : List String) (items : List RawItem) :
    (∀ x ∈ loaded, x ∈ (process_once orc loaded items).posted) ∧
    (∀ x, x ∈ (process_once orc loaded items).posted ↔
      (x ∈ loaded ∨ x ∈ (process_once orc loaded items).published)) ∧
    (process_once orc loaded items).published.Nodup ∧
    (∀ x ∈ (process_once orc loaded items).published, x ∉ loaded ∧ x ≠ "") ∧
    (∀ x ∈ (process_once orc loaded items).attempts, x ∉ loaded ∧ x ≠ "") ∧
    ((process_once orc loaded items).written = none ↔
      (process_once orc loaded items).published = []) ∧
    (∀ x, x ∈ nextSeen (process_once orc loaded items) loaded ↔
      (x ∈ loaded ∨ x ∈ (process_once orc loaded items).published)) := by
  cases items with
  | nil =>
    refine ⟨fun x hx => hx, by simp [process_once], by simp [process_once],
      by simp [process_once], by simp [process_once], by simp [process_once],
      by simp [process_once, nextSeen]⟩
  | cons i is =>
    obtain ⟨h1, h2, h3, h4, h5, h6⟩ := inv_runItems orc loaded (normalize_feed (i :: is))
    refine ⟨h1, h2, h3, h4, h5, ?_, ?_⟩
    · show (if (runItems orc loaded (normalize_feed (i :: is))).newPosted then
          some (runItems orc loaded (normalize_feed (i :: is))).posted else none) = none ↔
        (runItems orc loaded (normalize_feed (i :: is))).published = []
      cases hnp : (runItems orc loaded (normalize_feed (i :: is))).newPosted with
      | true =>
        have hne := h6.mp hnp
        show some (runItems orc loaded (normalize_feed (i :: is))).posted = none ↔
          (runItems orc loaded (normalize_feed (i :: is))).published = []
        exact ⟨fun hcon => Option.noConfusion hcon, fun hcon => absurd hcon hne⟩
      | false =>
        have hpub : (runItems orc loaded (normalize_feed (i :: is))).published = [] := by
          by_contra hcon
          have hbad := h6.mpr hcon
          rw [hnp] at hbad
          exact Bool.noConfusion hbad
        show (none : Option (List String)) = none ↔
          (runItems orc loaded (normalize_feed (i :: is))).published = []
        exact ⟨fun _ => hpub, fun _ => rfl⟩
    · intro x
      show x ∈ nextSeen ⟨(runItems orc loaded (normalize_feed (i :: is))).posted,
          (runItems orc loaded (normalize_feed (i :: is))).published,
          (runItems orc loaded (normalize_feed (i :: is))).attempts,
          if (runItems orc loaded (normalize_feed (i :: is))).newPosted then
            some (runItems orc loaded (normalize_feed (i :: is))).posted else none⟩ loaded ↔
        (x ∈ loaded ∨ x ∈ (runItems orc loaded (normalize_feed (i :: is))).published)
      cases hnp : (runItems orc loaded (normalize_feed (i :: is))).newPosted with
      | true =>
        show x ∈ (runItems orc loaded (normalize_feed (i :: is))).posted ↔
          (x ∈ loaded ∨ x ∈ (runItems orc loaded (normalize_feed (i :: is))).published)
        exact h2 x
      | false =>
        have hpub : (runItems orc loaded (normalize_feed (i :: is))).published = [] := by
          by_contra hcon
          have hbad := h6.mpr hcon
          rw [hnp] at hbad
          exact Bool.noConfusion hbad
        show x ∈ loaded ↔
          (x ∈ loaded ∨ x ∈ (runItems orc loaded (normalize_feed (i :: is))).published)
        rw [hpub]
        simp

/-! Multi-pass composition through the seen-set file. -/

theorem runPasses_cons (loaded : List String) (p : PassInput) (ps : List PassInput) :
    runPasses loaded (p :: ps) =
      (⟨loaded, (process_once p.oracles loaded p.items).published,
        (process_once p.oracles loaded p.items).attempts⟩ ::
        (runPasses (nextSeen (process_once p.oracles loaded p.items) loaded) ps).1,
       (runPasses (nextSeen (process_once p.oracles loaded p.items) loaded) ps).2) := rfl

/-- Across a pass sequence: attempted identities were never in their
pass's loaded seen-set, everything ever published was new at the start,
and the joined publish trace has no duplicates. -/
theorem runPasses_records (inputs : List PassInput) (loaded : List String) :
    (∀ r ∈ (runPasses loaded inputs).1, ∀ x ∈ r.attempts, x ∉ r.loaded) ∧
    (∀ x ∈ ((runPasses loaded inputs).1.map PassRecord.published).flatten, x ∉ loaded) ∧
    ((runPasses loaded inputs).1.map PassRecord.published).flatten.Nodup := by
  induction inputs generalizing loaded with
  | nil => refine ⟨?_, ?_, ?_⟩ <;> simp [runPasses]
  | cons p ps ih =>
    obtain ⟨ihA, ihJ, ihN⟩ := ih (nextSeen (process_once p.oracles loaded p.items) loaded)
    have hc := pass_core p.oracles loaded p.items
    rw [runPasses_cons]
    refine ⟨?_, ?_, ?_⟩
    · intro r hr
      rcases List.mem_cons.mp hr with hr | hr
      · subst hr
        intro x hx hxl
        exact (hc.2.2.2.2.1 x hx).1 hxl
      · exact ihA r hr
    · intro x hx
      rw [List.map_cons, List.flatten_cons] at hx
      rcases List.mem_append.mp hx with hx | hx
      · exact fun hxl => (hc.2.2.2.1 x hx).1 hxl
      · intro hxl
        have hxn : x ∈ nextSeen (process_once p.oracles loaded p.items) loaded :=
          (hc.2.2.2.2.2.2 x).mpr (Or.inl hxl)
        exact ihJ x hx hxn
    · rw [List.map_cons, List.flatten_cons]
      refine List.Nodup.append hc.2.2.1 ihN ?_
      intro x hx1 hx2
      have hxn : x ∈ nextSeen (process_once p.oracles loaded p.items) loaded :=
        (hc.2.2.2.2.2.2 x).mpr (Or.inr hx1)
      exact ihJ x hx2 hxn

/-! Normalizer helper lemmas. -/

theorem firstTruthy_cons (o : Option String) (rest : List (Option String)) :
    firstTruthy (o :: rest) =
      (match nonEmptyField o with
      | some s => s
      | none => firstTruthy rest) := by
  cases o with
  | none => rfl
  | some s =>
    by_cases h : s = ""
    · simp [firstTruthy, nonEmptyField, h]
    · simp [firstTruthy, nonEmptyField, h]

theorem normalize_feed_ids (items : List RawItem) :
    (normalize_feed items).map NormItem.id = (items.map derivedId).reverse := by
  unfold normalize_feed
  rw [List.map_reverse, List.map_map]
  rfl

/-! Interaction responder helper lemmas. -/

theorem poll_update_eq (cfg : SocialConfig) (s : PollerState) (u : TgUpdate) :
    poll_update cfg s u = ⟨max s.offset (u.update_id + 1),
      s.persisted ++ [max s.offset (u.update_id + 1)],
      s.answers ++ (match u.callback with
        | some cq => [(cq.id, answer_text cfg cq.data)]
        | none => [])⟩ := by
  unfold poll_update
  cases u.callback with
  | some cq => rfl
  | none => simp

theorem poll_fold_spec (cfg : SocialConfig) (us : List TgUpdate) (s : PollerState) :
    (us.foldl (poll_update cfg) s).answers = s.answers ++ answers_from cfg us ∧
    (us.foldl (poll_update cfg) s).persisted = s.persisted ++ offsets_from s.offset us ∧
    (us.foldl (poll_update cfg) s).offset = (offsets_from s.offset us).getLastD s.offset := by
  induction us generalizing s with
  | nil => simp [answers_from, offsets_from]
  | cons u us ih =>
    rw [List.foldl_cons, poll_update_eq]
    obtain ⟨hA, hP, hO⟩ := ih ⟨max s.offset (u.update_id + 1),
      s.persisted ++ [max s.offset (u.update_id + 1)],
      s.answers ++ (match u.callback with
        | some cq => [(cq.id, answer_text cfg cq.data)]
        | none => [])⟩
    refine ⟨?_, ?_, ?_⟩
    · rw [hA]
      cases hu : u.callback with
      | some cq => simp [answers_from, hu]
      | none => simp [answers_from, hu]
    · rw [hP]
      simp [offsets_from]
    · rw [hO]
      rw [offsets_from, List.getLastD_cons]

theorem offsets_chain (off : Nat) (us : List TgUpdate) :
    List.Chain' (fun a b => a ≤ b) (off :: offsets_from off us) := by
  induction us generalizing off with
  | nil => simp [offsets_from]
  | cons u us ih =>
    rw [offsets_from]
    exact List.chain'_cons.mpr ⟨Nat.le_max_left _ _, ih _⟩

theorem offsets_getLastD_le (off : Nat) (us : List TgUpdate) :
    off ≤ (offsets_from off us).getLastD off := by
  induction us generalizing off with
  | nil => simp [offsets_from]
  | cons u us ih =>
    rw [offsets_from, List.getLastD_cons]
    exact le_trans (Nat.le_max_left _ _) (ih _)

/-- Claim C1: across any sequence of completed poll passes threaded
through the seen-set file (identity is a deterministic function of the
item, hence stable), no identity is ever published twice — the
concatenated publish trace has no duplicate; an identity present in a
pass's loaded seen-set is skipped without any publish attempt of that
pass; and once an identity has been published at any point of a pass,
the remainder of the pass adds no further publish attempt for it. -/
theorem C1_dedup :
    (∀ (loaded : List String) (inputs : List PassInput),
      (((runPasses loaded inputs).1.map PassRecord.published).flatten).Nodup ∧
      (∀ r ∈ (runPasses loaded inputs).1, ∀ x ∈ r.loaded, x ∉ r.attempts)) ∧
    (∀ (orc : Oracles) (loaded : List String) (norm : List NormItem) (n : Nat) (id : String),
      id ∈ (runItems orc loaded (norm.take n)).published →
      ((runItems orc loaded norm).attempts).count id =
        ((runItems orc loaded (norm.take n)).attempts).count id) := by
  constructor
  · intro loaded inputs
    obtain ⟨hA, hJ, hN⟩ := runPasses_records inputs loaded
    refine ⟨hN, ?_⟩
    intro r hr x hxl hxa
    exact hA r hr x hxa hxl
  · intro orc loaded norm n id hid
    rw [runItems_take_drop orc loaded norm n]
    exact attempts_count_fold orc loaded (norm.drop n) _
      (inv_runItems orc loaded (norm.take n)) id hid

/-- Claim C1 witness: two identical all-succeeding passes over the demo
feed publish each identity once, and the second pass — loading the
seen-set written by the first — attempts nothing for "1". -/
theorem C1_dedup_witness :
    (((runPasses [] demoPassInputs).1.map PassRecord.published).flatten).Nodup ∧
    "1" ∉ ((runPasses [] demoPassInputs).1.getD 1 ⟨[], [], []⟩).attempts :=
  ⟨(C1_dedup.1 [] demoPassInputs).1,
    (C1_dedup.1 [] demoPassInputs).2 ((runPasses [] demoPassInputs).1.getD 1 ⟨[], [], []⟩)
      (by decide) "1" (by decide)⟩

/-- Claim C2: at every prefix of the pass loop — in particular after the
pass completes — an identity is in the in-memory seen-set exactly when
it was loaded or its send call this pass completed without error; the
same holds of the seen-set file content after the pass.  Hence an
identity whose every send threw is absent, and none is added before its
send succeeds. -/
theorem C2_seen_iff_success (orc : Oracles) (loaded : List String) (items : List RawItem) :
    (∀ n x, x ∈ (runItems orc loaded ((normalize_feed items).take n)).posted ↔
      (x ∈ loaded ∨ x ∈ (runItems orc loaded ((normalize_feed items).take n)).published)) ∧
    (∀ x, x ∈ (process_once orc loaded items).posted ↔
      (x ∈ loaded ∨ x ∈ (process_once orc loaded items).published)) ∧
    (∀ x, x ∈ nextSeen (process_once orc loaded items) loaded ↔
      (x ∈ loaded ∨ x ∈ (process_once orc loaded items).published)) := by
  refine ⟨?_, (pass_core orc loaded items).2.1, (pass_core orc loaded items).2.2.2.2.2.2⟩
  intro n x
  exact (inv_runItems orc loaded ((normalize_feed items).take n)).2.1 x

/-- Claim C2 witness: with every send call throwing, membership of "1"
after the pass reduces to having been loaded or published — both false
here. -/
theorem C2_seen_iff_success_witness :
    "1" ∈ (process_once failPubOrc [] demoFeed).posted ↔
      ("1" ∈ ([] : List String) ∨ "1" ∈ (process_once failPubOrc [] demoFeed).published) :=
  (C2_seen_iff_success failPubOrc [] demoFeed).2.1 "1"

/-- Claim C3: the publish order of a pass is an in-order selection of
the reversed feed order (oldest first); concretely, the newest-first
feed [{id:"2",title:"B"}, {id:"1",title:"A"}] with an empty seen-set
publishes "1" then "2", and the seen-set afterwards is {"1","2"} (also
as written to the file). -/
theorem C3_ordering :
    (∀ (orc : Oracles) (loaded : List String) (items : List RawItem),
      (process_once orc loaded items).published.Sublist ((items.map derivedId).reverse)) ∧
    (process_once demoOrc [] demoFeed).published = ["1", "2"] ∧
    (process_once demoOrc [] demoFeed).posted = ["1", "2"] ∧
    (process_once demoOrc [] demoFeed).written = some ["1", "2"] := by
  refine ⟨?_, by decide, by decide, by decide⟩
  intro orc loaded items
  cases items with
  | nil => exact List.nil_sublist _
  | cons i is =>
    obtain ⟨t, ht, hs⟩ := published_fold_sublist orc (normalize_feed (i :: is))
      ⟨loaded, [], [], false⟩
    rw [List.nil_append] at ht
    rw [normalize_feed_ids (i :: is)] at hs
    show (runItems orc loaded (normalize_feed (i :: is))).published.Sublist
      (((i :: is).map derivedId).reverse)
    rw [runItems, ht]
    exact hs

/-- Claim C3 witness: the order property applied to the demo pass. -/
theorem C3_ordering_witness :
    (process_once demoOrc [] demoFeed).published.Sublist
      ((demoFeed.map derivedId).reverse) :=
  C3_ordering.1 demoOrc [] demoFeed

/-- Claim C6 (corrected): the selection is by Python truthiness, not
field presence — the first PRESENT AND NON-EMPTY of `results`/`posts`
wins; when both are absent or empty, a non-empty payload dict itself is
returned, else the empty list; a missing key or a failed call also
yields the empty list. -/
theorem C6_api_truthy_selection (j : ApiPayload) (l : List RawItem) :
    (listTruthy j.results = some l → fetch_via_api true (some j) = FetchValue.items l) ∧
    (listTruthy j.results = none → listTruthy j.posts = some l →
      fetch_via_api true (some j) = FetchValue.items l) ∧
    (listTruthy j.results = none → listTruthy j.posts = none →
      fetch_via_api true (some j) =
        (if payloadTruthy j then FetchValue.wholePayload j else FetchValue.items [])) ∧
    fetch_via_api false (some j) = FetchValue.items [] ∧
    fetch_via_api true none = FetchValue.items [] := by
  refine ⟨?_, ?_, ?_, rfl, rfl⟩
  · intro h
    show fetch_select j = FetchValue.items l
    unfold fetch_select
    rw [h]
  · intro h1 h2
    show fetch_select j = FetchValue.items l
    unfold fetch_select
    rw [h1, h2]
  · intro h1 h2
    show fetch_select j =
      (if payloadTruthy j then FetchValue.wholePayload j else FetchValue.items [])
    unfold fetch_select
    rw [h1, h2]

/-- Claim C6 witness: with an empty `results` list present, the
non-empty `posts` list is what the fetch returns. -/
theorem C6_api_truthy_selection_witness :
    fetch_via_api true (some demoPayload) = FetchValue.items [mkItem (some "1") none] :=
  (C6_api_truthy_selection demoPayload [mkItem (some "1") none]).2.1 (by decide) (by decide)

/-- Claim C6 counterexample: on the payload {"results": [], "posts":
[item]}, the code returns the posts list, while the claim's
presence-based reading demands the (empty) results list. -/
theorem C6_counterexample :
    fetch_via_api true (some demoPayload) = FetchValue.items [mkItem (some "1") none] ∧
    claimFieldSelect demoPayload = FetchValue.items [] :=
  ⟨by decide, by decide⟩

/-- Claim C7: the derived identity is the first present non-empty of raw
id / url / title (else empty), the title the first present non-empty of
title / title_plain (else empty) — exactly the spec's selection order —
and an item with empty identity is never attempted, never published, and
never enters the seen-set (its membership after the pass reduces to its
membership in the loaded set). -/
theorem C7_normalizer_and_empty_skip :
    (∀ raw : RawItem, derivedId raw = specIdentity raw) ∧
    (∀ raw : RawItem, derivedTitle raw = specTitle raw) ∧
    (∀ (orc : Oracles) (loaded : List String) (items : List RawItem),
      "" ∉ (process_once orc loaded items).attempts ∧
      "" ∉ (process_once orc loaded items).published ∧
      ("" ∈ (process_once orc loaded items).posted ↔ "" ∈ loaded)) := by
  refine ⟨?_, ?_, ?_⟩
  · intro raw
    unfold derivedId specIdentity
    rw [firstTruthy_cons]
    cases nonEmptyField raw.id with
    | some s => rfl
    | none =>
      rw [firstTruthy_cons]
      cases nonEmptyField raw.url with
      | some s => rfl
      | none =>
        rw [firstTruthy_cons]
        cases nonEmptyField raw.title with
        | some s => rfl
        | none => rfl
  · intro raw
    unfold derivedTitle specTitle
    rw [firstTruthy_cons]
    cases nonEmptyField raw.title with
    | some s => rfl
    | none =>
      rw [firstTruthy_cons]
      cases nonEmptyField raw.title_plain with
      | some s => rfl
      | none => rfl
  · intro orc loaded items
    have hc := pass_core orc loaded items
    refine ⟨?_, ?_, ?_, ?_⟩
    · intro hx
      exact (hc.2.2.2.2.1 "" hx).2 rfl
    · intro hx
      exact (hc.2.2.2.1 "" hx).2 rfl
    · intro hx
      rcases (hc.2.1 "").mp hx with h | h
      · exact h
      · exact absurd rfl (hc.2.2.2.1 "" h).2
    · intro hx
      exact (hc.2.1 "").mpr (Or.inl hx)

/-- Claim C7 witness: a present-but-empty id falls through to the title,
and the demo pass attempts no empty identity. -/
theorem C7_normalizer_witness :
    derivedId (mkItem (some "") (some "T")) = specIdentity (mkItem (some "") (some "T")) ∧
    "" ∉ (process_once demoOrc [] demoFeed).attempts :=
  ⟨C7_normalizer_and_empty_skip.1 (mkItem (some "") (some "T")),
    (C7_normalizer_and_empty_skip.2.2 demoOrc [] demoFeed).1⟩

/-- Claim C8: loading the seen-set never raises — a missing file and a
file whose content the JSON decoder rejects both yield the empty
{"posted_ids": []}; decodable content is returned as decoded. -/
theorem C8_corrupt_state (parseJson : String → Option SeenData) (content : String) :
    read_last_seen parseJson none = ⟨[]⟩ ∧
    (parseJson content = none → read_last_seen parseJson (some content) = ⟨[]⟩) ∧
    (∀ d, parseJson content = some d → read_last_seen parseJson (some content) = d) := by
  refine ⟨rfl, ?_, ?_⟩
  · intro h
    show (match parseJson content with
      | some d => d
      | none => (⟨[]⟩ : SeenData)) = ⟨[]⟩
    rw [h]
  · intro d h
    show (match parseJson content with
      | some d => d
      | none => (⟨[]⟩ : SeenData)) = d
    rw [h]

/-- Claim C8 witness: a decoder that rejects everything still yields the
empty seen-set on concrete garbage content. -/
theorem C8_corrupt_state_witness :
    read_last_seen (fun _ => none) (some "garbage") = ⟨[]⟩ :=
  (C8_corrupt_state (fun _ => none) "garbage").2.1 rfl

/-- Claim C9: a callback whose data key is no set social key (or whose
handle is unset) is answered with the generic "Handle not set." text;
each batch answers exactly the callback-carrying updates, in order, with
the computed text; every processed update persists the offset
max(previous offset, update id + 1); and the persisted watermark
sequence is monotonically non-decreasing from the starting offset. -/
theorem C9_responder (cfg : SocialConfig) (off : Nat) (us : List TgUpdate) (d : String) :
    (¬(d = "social_ig" ∧ cfg.ig ≠ "") → ¬(d = "social_x" ∧ cfg.x ≠ "") →
      ¬(d = "social_yt" ∧ cfg.yt ≠ "") → answer_text cfg d = "Handle not set.") ∧
    (poll_batch cfg off us).answers = answers_from cfg us ∧
    (poll_batch cfg off us).persisted = offsets_from off us ∧
    List.Chain' (fun a b => a ≤ b) (off :: offsets_from off us) ∧
    off ≤ (poll_batch cfg off us).offset := by
  obtain ⟨hA, hP, hO⟩ := poll_fold_spec cfg us ⟨off, [], []⟩
  refine ⟨?_, ?_, ?_, offsets_chain off us, ?_⟩
  · intro h1 h2 h3
    unfold answer_text
    rw [if_neg h1, if_neg h2, if_neg h3]
  · show (us.foldl (poll_update cfg) ⟨off, [], []⟩).answers = answers_from cfg us
    rw [hA]
    simp
  · show (us.foldl (poll_update cfg) ⟨off, [], []⟩).persisted = offsets_from off us
    rw [hP]
    simp
  · show off ≤ (us.foldl (poll_update cfg) ⟨off, [], []⟩).offset
    rw [hO]
    exact offsets_getLastD_le off us

/-- Claim C9 witness: with no handle configured, the known key
"social_ig" still answers with the generic text. -/
theorem C9_responder_witness :
    answer_text ⟨"", "", ""⟩ "social_ig" = "Handle not set." :=
  (C9_responder ⟨"", "", ""⟩ 0 [] "social_ig").1 (by decide) (by decide) (by decide)

/-- Claim C10: the seen-set file is rewritten exactly when the pass
published at least one item; with no successful publish — empty fetch,
all items seen or empty-identity, every model call failed, or every send
threw — the file content is left unchanged. -/
theorem C10_no_publish_no_write (orc : Oracles) (loaded : List String) (items : List RawItem) :
    ((process_once orc loaded items).written = none ↔
      (process_once orc loaded items).published = []) ∧
    ((process_once orc loaded items).written = none →
      nextSeen (process_once orc loaded items) loaded = loaded) := by
  refine ⟨(pass_core orc loaded items).2.2.2.2.2.1, ?_⟩
  intro h
  unfold nextSeen
  rw [h]

/-- Claim C10 witness: with every send call throwing, the pass over the
demo feed does not rewrite the seen-set file. -/
theorem C10_no_publish_no_write_witness :
    (process_once failPubOrc [] demoFeed).written = none :=
  (C10_no_publish_no_write failPubOrc [] demoFeed).1.mpr (by decide)

end NewsAuto
